import Mathlib

/-!
Verification of the StudySync hybrid AI resolution engine.

This file gives a shallow embedding of the fallback resolver implemented by
the class HybridAIManager (src/unnamed/part_004, lines 670-1185), of the
response normalization performed by AIManager.geminiPrompt
(src/unnamed/part_003, lines 347-411) and of the endpoint cascade of
AIManagerEnhanced.geminiPrompt (src/unnamed/part_004, lines 254-299).

Ambient browser state (the global ai object, the network, chrome storage) is
modeled by explicit oracle parameters; JavaScript exceptions are modeled by
Except, JavaScript undefined by Option, and JavaScript truthiness of the
values that actually flow through the code (strings, arrays, undefined) by
an explicit truthy function.
-/

/-- JavaScript a or b for string options: a falsy option (absent or empty
string) falls back to the default. -/
def jsOr (o : Option String) (d : String) : String :=
  match o with
  | some s => if s = "" then d else s
  | none => d

/-- The apostrophe character, written via its code point. -/
def apoC : Char := Char.ofNat 39

/-- One-character apostrophe string. -/
def apoS : String := String.singleton apoC

/-- ASCII lowercase letter, the character class [a-z]. -/
def isLowerAscii (c : Char) : Bool := 'a' ≤ c && c ≤ 'z'

/-- ASCII uppercase letter, the character class [A-Z]. -/
def isUpperAscii (c : Char) : Bool := 'A' ≤ c && c ≤ 'Z'

/-- ASCII digit, the regex class \d. -/
def isDigitAscii (c : Char) : Bool := '0' ≤ c && c ≤ '9'

/-- The regex word-character class \w, that is [A-Za-z0-9_]. -/
def isWordChar (c : Char) : Bool :=
  isLowerAscii c || isUpperAscii c || isDigitAscii c || c = '_'

/-- Sentence terminators, the characters matched by [.!?]. -/
def isTermChar (c : Char) : Bool := c = '.' || c = '!' || c = '?'

/-- Last element of a list with a default, used for the endpoint list. -/
def lastElemD (d : String) : List String → String
  | [] => d
  | [x] => x
  | _ :: x :: xs => lastElemD d (x :: xs)

theorem length_dropWhile_le {α : Type} (p : α → Bool) (l : List α) :
    (l.dropWhile p).length ≤ l.length := by
  induction l with
  | nil => simp [List.dropWhile]
  | cons c cs ih =>
    simp only [List.dropWhile]
    cases p c <;> simp <;> try omega

/-- JavaScript String.prototype.split on the regex \s+ : separators are
maximal whitespace runs, a leading or trailing run produces an empty
element, and the empty string yields one empty element. -/
def splitWsAux (cur : List Char) (cs : List Char) : List String :=
  match cs with
  | [] => [String.mk cur.reverse]
  | c :: cs' =>
    if c.isWhitespace then
      String.mk cur.reverse :: splitWsAux [] (cs'.dropWhile Char.isWhitespace)
    else
      splitWsAux (c :: cur) cs'
termination_by cs.length
decreasing_by
  · have := length_dropWhile_le Char.isWhitespace cs'
    simp only [List.length_cons]
    omega
  · simp only [List.length_cons]
    omega

/-- words = text.split(/\s+/) as used by basicExplain. -/
def jsSplitWs (s : String) : List String := splitWsAux [] s.data

/-- JavaScript String.prototype.split with a one-character separator. -/
def splitChar (sep : Char) : List Char → List (List Char)
  | [] => [[]]
  | c :: cs =>
    if c = sep then [] :: splitChar sep cs
    else
      match splitChar sep cs with
      | [] => [[c]]
      | g :: gs => (c :: g) :: gs

/-- String-level wrapper for splitChar. -/
def jsSplit1 (sep : Char) (s : String) : List String :=
  (splitChar sep s.data).map String.mk

/-- JavaScript String.prototype.trim on character lists. -/
def trimL (cs : List Char) : List Char :=
  ((cs.dropWhile Char.isWhitespace).reverse.dropWhile Char.isWhitespace).reverse

/-- JavaScript String.prototype.trim. -/
def jsTrim (s : String) : String := String.mk (trimL s.data)

/-- Whether pat is a prefix of cs. -/
def startsWithL : List Char → List Char → Bool
  | [], _ => true
  | _ :: _, [] => false
  | p :: ps, c :: cs => p = c && startsWithL ps cs

/-- Whether pat occurs in cs, String.prototype.includes. -/
def containsSub (pat : List Char) : List Char → Bool
  | [] => pat.isEmpty
  | c :: cs => startsWithL pat (c :: cs) || containsSub pat cs

/-- JavaScript String.prototype.replace with a plain string pattern and the
empty replacement: remove the first occurrence of pat only. -/
def replaceFirstSub (pat : List Char) : List Char → List Char
  | [] => []
  | c :: cs =>
    if startsWithL pat (c :: cs) then (c :: cs).drop pat.length
    else c :: replaceFirstSub pat cs

/-!
The sentence matcher.  Several of the heuristic fallback methods compute
text.match(/[^.!?]+[.!?]+/g) || [] : the list of chunks made of one or more
non-terminator characters followed by one or more terminator characters.
msGo is a single pass embedding of that global regex match: body holds the
reversed non-terminator run collected so far and terms the reversed
terminator run that follows it.
-/

def msGo (body terms : List Char) : List Char → List (List Char)
  | [] =>
    if body.isEmpty || terms.isEmpty then []
    else [body.reverse ++ terms.reverse]
  | c :: cs =>
    if isTermChar c then
      if body.isEmpty then msGo [] [] cs
      else msGo body (c :: terms) cs
    else
      if terms.isEmpty then msGo (c :: body) [] cs
      else (body.reverse ++ terms.reverse) :: msGo [c] [] cs

/-- The sentence list text.match(/[^.!?]+[.!?]+/g) || []. -/
def matchSentencesL (cs : List Char) : List (List Char) := msGo [] [] cs

/-- Join a list of character lists with a single space, Array.join(" "). -/
def joinSp : List (List Char) → List Char
  | [] => []
  | [s] => s
  | s :: s' :: ss => s ++ ' ' :: joinSp (s' :: ss)

/-- A flashcard as produced by parseFlashcards and basicCreateFlashcards. -/
structure Flashcard where
  question : String
  answer : String
deriving DecidableEq, Repr

/-- Hexadecimal digit used by percent-encoding. -/
def hexDigit (n : Nat) : Char :=
  if n < 10 then Char.ofNat ('0'.toNat + n) else Char.ofNat ('A'.toNat + n - 10)

/-- Characters left unescaped by JavaScript encodeURIComponent. -/
def uriUnreserved (c : Char) : Bool :=
  isLowerAscii c || isUpperAscii c || isDigitAscii c ||
    c = '-' || c = '_' || c = '.' || c = '!' || c = '~' || c = '*' || c = apoC ||
    c = '(' || c = ')'

/-- Percent-encode one byte. -/
def percentByte (b : UInt8) : String :=
  "%" ++ String.singleton (hexDigit (b.toNat / 16)) ++ String.singleton (hexDigit (b.toNat % 16))

/-- JavaScript encodeURIComponent: unreserved characters pass through, every
other character is replaced by the percent-encoding of its UTF-8 bytes. -/
def encodeURIComponent (s : String) : String :=
  s.data.foldl
    (fun acc c =>
      if uriUnreserved c then acc ++ String.singleton c
      else acc ++ String.join (((String.singleton c).toUTF8.toList).map percentByte))
    ""

namespace HybridAIManager

/-- The option bag passed to process; only the fields read by the basic
fallback implementations are modeled. -/
structure JsOptions where
  length : Option String := none
  sourceLanguage : Option String := none
  targetLanguage : Option String := none
deriving Repr

/-- counts[length] || 4 after length = options.length || "medium". -/
def summaryCount (lengthOpt : Option String) : Nat :=
  let l := jsOr lengthOpt "medium"
  if l = "short" then 2 else if l = "medium" then 4 else if l = "long" then 6 else 4

/-- The index sequence of the middle-sentence loop of basicSummarize:
for (let i = step; i < sentences.length - 1; i += step).  The step = 0 guard
is unreachable in the calling context (it is only taken when the loop would
not run) and makes the recursion total. -/
def midIdxs (step len i : Nat) : List Nat :=
  if h : step = 0 ∨ ¬ i < len - 1 then []
  else i :: midIdxs step len (i + step)
termination_by len - i
decreasing_by
  push_neg at h
  omega

/-- HybridAIManager.basicSummarize (src/unnamed/part_004, lines 981-1008) on
character lists. -/
def basicSummarizeL (cs : List Char) (opts : JsOptions) : List Char :=
  let sentences := matchSentencesL cs
  let count := summaryCount opts.length
  if sentences.length ≤ count then joinSp sentences
  else
    let step := sentences.length / count
    let withMids :=
      (midIdxs step sentences.length step).foldl
        (fun acc i => if acc.length < count - 1 then acc ++ [sentences.getD i []] else acc)
        [sentences.headD []]
    joinSp (withMids ++ [sentences.getLastD []])

/-- HybridAIManager.basicSummarize on strings. -/
def basicSummarize (text : String) (opts : JsOptions) : String :=
  String.mk (basicSummarizeL text.data opts)

/-- HybridAIManager.basicTranslate (lines 1010-1017). -/
def basicTranslate (text : String) (opts : JsOptions) : String :=
  let sourceLang := jsOr opts.sourceLanguage "en"
  let targetLang := jsOr opts.targetLanguage "es"
  "Translation not available offline. Open Google Translate: " ++
    ("https://translate.google.com/?sl=" ++ sourceLang ++ "&tl=" ++ targetLang ++
     "&text=" ++ encodeURIComponent text)

/-- The template questions of basicGenerateQuestions. -/
def questionTemplates : List String :=
  ["What is the main topic discussed?",
   "Can you explain the key concept mentioned?",
   "What are the important points to remember?",
   "How does this information relate to the subject?",
   "What conclusions can be drawn from this text?"]

/-- HybridAIManager.basicGenerateQuestions (lines 1019-1043); the options
argument of the caller is ignored by the source function. -/
def basicGenerateQuestions (text : String) : List String :=
  let sentences := (matchSentencesL text.data).map String.mk
  let fromFirst :=
    match sentences.head? with
    | some firstSentence =>
      let topic := String.intercalate " " ((jsSplit1 ' ' firstSentence).take 5)
      ["What do you know about " ++ topic ++ "?"]
    | none => []
  fromFirst ++ questionTemplates.take 4

/-- First match of the key-term regex /\b[A-Z][a-z]+\b|\b\d+\b/ in a
sentence: a capitalized word or a number, with word boundaries.  prev is the
character before the scan position (none at the start of the string). -/
def firstKeyTermAux (prev : Option Char) : List Char → Option (List Char)
  | [] => none
  | c :: cs =>
    let boundaryBefore := match prev with | none => true | some p => !isWordChar p
    if boundaryBefore && isUpperAscii c then
      let lows := cs.takeWhile isLowerAscii
      let after := cs.dropWhile isLowerAscii
      if !lows.isEmpty && (after.isEmpty || !isWordChar (after.headD ' ')) then
        some (c :: lows)
      else firstKeyTermAux (some c) cs
    else if boundaryBefore && isDigitAscii c then
      let ds := cs.takeWhile isDigitAscii
      let after := cs.dropWhile isDigitAscii
      if after.isEmpty || !isWordChar (after.headD ' ') then some (c :: ds)
      else firstKeyTermAux (some c) cs
    else firstKeyTermAux (some c) cs

/-- sentence.match(/\b[A-Z][a-z]+\b|\b\d+\b/g) restricted to its first
element, the only one basicCreateFlashcards reads. -/
def firstKeyTerm (cs : List Char) : Option (List Char) := firstKeyTermAux none cs

/-- HybridAIManager.basicCreateFlashcards (lines 1045-1068); the options
argument of the caller is ignored by the source function. -/
def basicCreateFlashcards (text : String) : List Flashcard :=
  ((matchSentencesL text.data).take 10).enum.map fun p =>
    match firstKeyTerm p.2 with
    | some kt => { question := "What is " ++ String.mk kt ++ "?", answer := String.mk (trimL p.2) }
    | none => { question := "Fact #" ++ toString (p.1 + 1), answer := String.mk (trimL p.2) }

/-- The spelling-correction table of basicProofread (lines 1071-1083). -/
def corrections : List (String × String) :=
  [("teh", "the"), ("recieve", "receive"), ("occured", "occurred"),
   ("untill", "until"), ("wich", "which"),
   ("doesnt", "doesn" ++ apoS ++ "t"), ("dont", "don" ++ apoS ++ "t"),
   ("wont", "won" ++ apoS ++ "t"), ("cant", "can" ++ apoS ++ "t"),
   ("wouldnt", "wouldn" ++ apoS ++ "t")]

/-- Case-insensitive equality of character lists, the i regex flag. -/
def eqCI (a b : List Char) : Bool := a.map Char.toLower == b.map Char.toLower

/-- corrected.replace(new RegExp("\\b" + wrong + "\\b", "gi"), right): since
every wrong word is purely alphabetic, a whole-word occurrence is exactly a
maximal word-character run equal (case-insensitively) to it. -/
def replaceWordL (wrong right : List Char) (cs : List Char) : List Char :=
  match cs with
  | [] => []
  | c :: cs' =>
    if isWordChar c then
      let w := c :: cs'.takeWhile isWordChar
      let rest := cs'.dropWhile isWordChar
      (if eqCI w wrong then right else w) ++ replaceWordL wrong right rest
    else c :: replaceWordL wrong right cs'
termination_by cs.length
decreasing_by
  · have := length_dropWhile_le isWordChar cs'
    simp only [List.length_cons]
    omega
  · simp only [List.length_cons]
    omega

/-- corrected.replace(/^\s*[a-z]/gm, m => m.toUpperCase()): at every line
start, skip whitespace and uppercase the first ASCII lowercase letter if it
is the first non-whitespace character; atStart records that only whitespace
has been seen since the last line start. -/
def capLineStarts (atStart : Bool) : List Char → List Char
  | [] => []
  | c :: cs =>
    if c = '\n' then c :: capLineStarts true cs
    else if atStart && c.isWhitespace then c :: capLineStarts true cs
    else if atStart && isLowerAscii c then c.toUpper :: capLineStarts false cs
    else c :: capLineStarts false cs

/-- corrected.replace(/\. [a-z]/g, m => m.toUpperCase()). -/
def capAfterDot : List Char → List Char
  | '.' :: ' ' :: c :: cs =>
    if isLowerAscii c then '.' :: ' ' :: c.toUpper :: capAfterDot cs
    else '.' :: ' ' :: capAfterDot (c :: cs)
  | c :: cs => c :: capAfterDot cs
  | [] => []

/-- HybridAIManager.basicProofread (lines 1070-1096) on character lists:
sequentially apply the word corrections, then the two capitalization
passes. -/
def basicProofreadL (cs : List Char) : List Char :=
  capAfterDot (capLineStarts true
    (corrections.foldl (fun acc p => replaceWordL p.1.data p.2.data acc) cs))

/-- HybridAIManager.basicProofread on strings. -/
def basicProofread (text : String) : String := String.mk (basicProofreadL text.data)

/-- HybridAIManager.basicExplain (lines 1098-1108); reproduces the template
literal including its embedded newlines and indentation. -/
def basicExplain (text : String) : String :=
  let words := jsSplitWs text
  let sentences := (matchSentencesL text.data).map String.mk
  "This text contains " ++ toString words.length ++ " words and " ++
    toString sentences.length ++ " sentences. \n            The main topic appears to be: " ++
    String.intercalate " " (words.take 5) ++ "...\n            \n            Key points:\n            " ++
    String.intercalate "\n"
      ((sentences.take 3).enum.map fun p => toString (p.1 + 1) ++ ". " ++ jsTrim p.2)

/-- The leading-ordinal stripper of parseQuestions:
line.replace(/^\d+[\.\)]\s*/, "") removes one leading run of digits followed
by a period or closing parenthesis and any following whitespace. -/
def stripNumbering (l : List Char) : List Char :=
  let ds := l.takeWhile isDigitAscii
  let rest := l.dropWhile isDigitAscii
  if ds.isEmpty then l
  else
    match rest with
    | c :: cs => if c = '.' || c = ')' then cs.dropWhile Char.isWhitespace else l
    | [] => l

/-- The structured items found by HybridAIManager.parseQuestions
(src/unnamed/part_004, lines 1111-1124): non-blank lines, stripped of a
leading ordinal and trimmed, kept when non-empty and longer than 10
characters. -/
def parseQuestionsItems (text : String) : List String :=
  let lines := (splitChar (Char.ofNat 10) text.data).filter (fun line => !(trimL line).isEmpty)
  ((lines.map (fun line => trimL (stripNumbering line))).filter
    (fun cleaned => !cleaned.isEmpty && cleaned.length > 10)).map String.mk

/-- HybridAIManager.parseQuestions: the parsed items, or the single
placeholder question when none were found. -/
def parseQuestions (text : String) : List String :=
  let questions := parseQuestionsItems text
  if questions.isEmpty then ["Could not generate questions"] else questions

/-- One line of HybridAIManager.parseFlashcards (lines 1126-1143).  A line
containing both labels but no pipe makes the destructured second component
undefined, so a.replace throws a TypeError, modeled as the error case. -/
def parseFlashcardLine (line : List Char) : Except String (Option Flashcard) :=
  if containsSub "Q:".data line && containsSub "A:".data line then
    match (splitChar (Char.ofNat 124) line).map trimL with
    | q :: a :: _ =>
      let question := trimL (replaceFirstSub "Q:".data q)
      let answer := trimL (replaceFirstSub "A:".data a)
      if !question.isEmpty && !answer.isEmpty then
        .ok (some { question := String.mk question, answer := String.mk answer })
      else .ok none
    | _ => .error "TypeError"
  else .ok none

/-- The accumulated structured items of parseFlashcards over all lines. -/
def parseFlashcardsItemsE (text : String) : Except String (List Flashcard) :=
  (splitChar (Char.ofNat 10) text.data).foldlM
    (fun acc line => (parseFlashcardLine line).map (fun o => acc ++ o.toList)) []

/-- HybridAIManager.parseFlashcards: the parsed items, or the single sample
placeholder when none were found; propagates the TypeError of a malformed
line. -/
def parseFlashcardsE (text : String) : Except String (List Flashcard) :=
  (parseFlashcardsItemsE text).map fun flashcards =>
    if flashcards.isEmpty then [{ question := "Sample Question", answer := "Sample Answer" }]
    else flashcards

end HybridAIManager

/-!
The Gemini REST payload shape, shared by the three cloud call sites.  Absent
JSON fields are Option.none.
-/

/-- One element of candidates[0].content.parts. -/
structure GPart where
  text : Option String
deriving DecidableEq, Repr

/-- The content field of a candidate. -/
structure GContent where
  parts : Option (List GPart)
deriving DecidableEq, Repr

/-- One element of the candidates array. -/
structure GCandidate where
  content : Option GContent
  output : Option String
deriving DecidableEq, Repr

/-- The parsed response body. -/
structure GPayload where
  candidates : Option (List GCandidate)
deriving DecidableEq, Repr

/-- Outcome of one fetch of a Gemini endpoint: an ok response with a parsed
body, a non-ok response whose resolved message is
error.error?.message || response.statusText, or a rejected fetch with the
thrown error message. -/
inductive FetchRes
  | okPayload (p : GPayload)
  | httpError (msg : String)
  | fetchError (msg : String)
deriving Repr

/-- The expression data.candidates[0].content.parts[0].text evaluated with
JavaScript semantics: .error is a thrown TypeError (an undefined object on
the path), .ok none is an existing part whose text field is undefined, and
.ok (some t) is the extracted string. -/
def extractDeepText (p : GPayload) : Except String (Option String) :=
  match p.candidates with
  | none => .error "TypeError"
  | some [] => .error "TypeError"
  | some (cand :: _) =>
    match cand.content with
    | none => .error "TypeError"
    | some ct =>
      match ct.parts with
      | none => .error "TypeError"
      | some [] => .error "TypeError"
      | some (part :: _) => .ok part.text

namespace AIManager

/-- The possible normalization failure of AIManager.geminiPrompt. -/
inductive NormError
  | invalidPayload
deriving DecidableEq, Repr

/-- Path (a) of the normalizer without the emptiness check:
candidates[0].content.parts[0].text when
candidate?.content?.parts?.length > 0, as an optional value. -/
def pathAText (p : GPayload) : Option String :=
  match p.candidates with
  | some (cand :: _) =>
    (match cand.content with
     | some ct =>
       match ct.parts with
       | some (part :: _) => part.text
       | _ => none
     | none => none)
  | _ => none

/-- Path (a) with the truthiness check of the source: the extracted text only
when it is a non-empty string. -/
def pathACheck (cand : GCandidate) : Option String :=
  match cand.content with
  | some ct =>
    (match ct.parts with
     | some (part :: _) =>
       (match part.text with
        | some t => if t = "" then none else some t
        | none => none)
     | _ => none)
  | none => none

/-- The response normalization of AIManager.geminiPrompt
(src/unnamed/part_003, lines 372-402) for an ok HTTP response: try
candidates[0].content.parts[0].text, then candidates[0].output, each under a
truthiness guard; throw the invalid-structure error otherwise. -/
def normalizeGemini (p : GPayload) : Except NormError String :=
  match p.candidates with
  | some (cand :: _) =>
    (match pathACheck cand with
     | some t => .ok t
     | none =>
       match cand.output with
       | some o => if o = "" then .error .invalidPayload else .ok o
       | none => .error .invalidPayload)
  | _ => .error .invalidPayload

end AIManager

namespace AIManagerEnhanced

/-- The endpoint variants tried by AIManagerEnhanced.geminiPrompt
(src/unnamed/part_004, lines 256-260). -/
def geminiEndpoints : List String :=
  ["https://generativelanguage.googleapis.com/v1beta/models/gemini-1.5-flash-latest:generateContent",
   "https://generativelanguage.googleapis.com/v1beta/models/gemini-1.5-pro-latest:generateContent",
   "https://generativelanguage.googleapis.com/v1beta/models/gemini-pro:generateContent"]

/-- The endpoint loop of AIManagerEnhanced.geminiPrompt (lines 262-298) over
a network oracle: an ok response returns the nested text (possibly
undefined); a thrown extraction TypeError, a non-ok response or a fetch
failure records lastError and continues; exhaustion throws the final error
built from lastError. -/
def tryEndpoints (net : String → FetchRes) :
    List String → Option String → Except String (Option String)
  | [], lastError => .error ("Gemini API error: " ++ lastError.getD "null")
  | e :: rest, lastError =>
    match net e with
    | .okPayload p =>
      (match extractDeepText p with
       | .ok v => .ok v
       | .error m => tryEndpoints net rest (some m))
    | .httpError m => tryEndpoints net rest (some m)
    | .fetchError m => tryEndpoints net rest (some m)

/-- AIManagerEnhanced.geminiPrompt as a function of the network oracle. -/
def geminiPrompt (net : String → FetchRes) : Except String (Option String) :=
  tryEndpoints net geminiEndpoints none

/-- An endpoint attempt counts as failed when the response is non-ok, the
fetch rejects, or the ok payload has no extractable nested path. -/
def endpointFails (r : FetchRes) : Bool :=
  match r with
  | .okPayload p => (match extractDeepText p with | .ok _ => false | .error _ => true)
  | .httpError _ => true
  | .fetchError _ => true

/-- The message a failed endpoint attempt stores in lastError. -/
def endpointFailMsg (r : FetchRes) : String :=
  match r with
  | .okPayload p => (match extractDeepText p with | .ok _ => "" | .error m => m)
  | .httpError m => m
  | .fetchError m => m

/-- The value a non-failing endpoint attempt returns. -/
def endpointValue (r : FetchRes) : Option (Option String) :=
  match r with
  | .okPayload p => (match extractDeepText p with | .ok v => some v | .error _ => none)
  | .httpError _ => none
  | .fetchError _ => none

end AIManagerEnhanced

namespace HybridAIManager

/-- The per-session usage counters of HybridAIManager (lines 676-681). -/
structure Stats where
  builtInCalls : Nat := 0
  cloudCalls : Nat := 0
  fallbackCalls : Nat := 0
  errors : Nat := 0
deriving DecidableEq, Repr

/-- The manager configuration reached after initialize(): whether the
built-in AI probe reported readily, and the stored Gemini API key. -/
structure HybridConfig where
  isBuiltInAIAvailable : Bool
  geminiApiKey : Option String
deriving Repr

/-- The three strategies of process, in their registration order. -/
inductive StrategyName
  | builtInAI
  | geminiAPI
  | basicFallback
deriving DecidableEq, Repr

/-- The ambient environment of one process call: the response of the
built-in ai.* backends for each operation string, and the network response
for each endpoint URL. -/
structure AIEnv where
  builtinResponse : String → Except String String
  network : String → FetchRes

/-- A value flowing out of a strategy method: a string, an array of
questions, an array of flashcards, or undefined. -/
inductive StratResult
  | str (s : String)
  | list (l : List String)
  | cards (l : List Flashcard)
  | undef
deriving DecidableEq, Repr

/-- JavaScript truthiness of a strategy result, the guard if (result) of the
process loop: the empty string and undefined are falsy, every array is
truthy. -/
def truthy : StratResult → Bool
  | .str s => !(s == "")
  | .list _ => true
  | .cards _ => true
  | .undef => false

/-- HybridAIManager.updateStats (lines 1145-1153). -/
def updateStats (method : StrategyName) (s : Stats) : Stats :=
  match method with
  | .builtInAI => { s with builtInCalls := s.builtInCalls + 1 }
  | .geminiAPI => { s with cloudCalls := s.cloudCalls + 1 }
  | .basicFallback => { s with fallbackCalls := s.fallbackCalls + 1 }

/-- HybridAIManager.processWithBuiltInAI (lines 784-814): guard on the cached
availability flag, then dispatch to the ai.* backend (abstracted by the
environment oracle) and apply the secondary parse for the structured
operations. -/
def processWithBuiltInAI (env : AIEnv) (cfg : HybridConfig) (op : String) :
    Except String StratResult :=
  if !cfg.isBuiltInAIAvailable then .error "Built-in AI not available"
  else
    match env.builtinResponse op with
    | .error m => .error m
    | .ok response =>
      if op = "generateQuestions" then .ok (.list (parseQuestions response))
      else if op = "createFlashcards" then (parseFlashcardsE response).map .cards
      else .ok (.str response)

/-- The single endpoint used by HybridAIManager.processWithGeminiAPI
(line 911). -/
def hybridProEndpoint : String :=
  "https://generativelanguage.googleapis.com/v1beta/models/gemini-pro:generateContent"

/-- HybridAIManager.processWithGeminiAPI (lines 892-947): guard on the key,
fetch the gemini-pro endpoint, extract candidates[0].content.parts[0].text
(a TypeError or undefined propagate as in the source), and apply the
secondary parse for the structured operations. -/
def processWithGeminiAPI (env : AIEnv) (cfg : HybridConfig) (op : String) :
    Except String StratResult :=
  if cfg.geminiApiKey.isNone then .error "Gemini API key not configured"
  else
    match env.network hybridProEndpoint with
    | .fetchError m => .error m
    | .httpError m => .error ("Gemini API error: " ++ m)
    | .okPayload p =>
      match extractDeepText p with
      | .error m => .error m
      | .ok none =>
        if op = "generateQuestions" || op = "createFlashcards" then .error "TypeError"
        else .ok .undef
      | .ok (some t) =>
        if op = "generateQuestions" then .ok (.list (parseQuestions t))
        else if op = "createFlashcards" then (parseFlashcardsE t).map .cards
        else .ok (.str t)

/-- HybridAIManager.processWithBasicFallback (lines 950-978): dispatch to the
pure heuristic implementations. -/
def processWithBasicFallback (text op : String) (opts : JsOptions) : StratResult :=
  if op = "summarize" then .str (basicSummarize text opts)
  else if op = "translate" then .str (basicTranslate text opts)
  else if op = "generateQuestions" then .list (basicGenerateQuestions text)
  else if op = "createFlashcards" then .cards (basicCreateFlashcards text)
  else if op = "proofread" then .str (basicProofread text)
  else if op = "explain" then .str (basicExplain text)
  else if op = "rewrite" then .str text
  else .str ("[Basic processing] " ++ text.take 200 ++ "...")

/-- One strategy attempt of the process loop, paired with whether the
underlying backend was actually reached (false when the guard threw before
dispatching to any backend). -/
def runStrategy (env : AIEnv) (cfg : HybridConfig) (text op : String) (opts : JsOptions) :
    StrategyName → Except String StratResult × Bool
  | .builtInAI => (processWithBuiltInAI env cfg op, cfg.isBuiltInAIAvailable)
  | .geminiAPI => (processWithGeminiAPI env cfg op, cfg.geminiApiKey.isSome)
  | .basicFallback => (.ok (processWithBasicFallback text op opts), true)

/-- The value returned by a successful process call: the strategy result and
the strategy that served it. -/
structure Success where
  result : StratResult
  method : StrategyName
deriving DecidableEq, Repr

/-- The observable run of one process call: its outcome (the terminal error
when every strategy failed), the ordered attempt trail with the recorded
failure reason of each attempt, the backends actually invoked, and the
updated stats. -/
structure RunResult where
  outcome : Except String Success
  attempts : List (StrategyName × Option String)
  invoked : List StrategyName
  stats : Stats
deriving Repr

/-- The strategy loop of HybridAIManager.process (lines 760-781): try each
strategy in order, count an error and continue on a throw, continue silently
on a falsy result, return on a truthy result, and throw the terminal error
after exhaustion. -/
def processAux (env : AIEnv) (cfg : HybridConfig) (text op : String) (opts : JsOptions) :
    List StrategyName → List (StrategyName × Option String) → List StrategyName → Stats →
    RunResult
  | [], trail, invoked, st =>
    { outcome := .error "All AI processing strategies failed",
      attempts := trail, invoked := invoked, stats := st }
  | s :: rest, trail, invoked, st =>
    match runStrategy env cfg text op opts s with
    | (.error m, reached) =>
      processAux env cfg text op opts rest (trail ++ [(s, some m)])
        (invoked ++ if reached then [s] else []) { st with errors := st.errors + 1 }
    | (.ok v, reached) =>
      if truthy v then
        { outcome := .ok { result := v, method := s },
          attempts := trail ++ [(s, none)],
          invoked := invoked ++ (if reached then [s] else []),
          stats := updateStats s st }
      else
        processAux env cfg text op opts rest (trail ++ [(s, none)])
          (invoked ++ if reached then [s] else []) st

/-- HybridAIManager.process (lines 751-781) with its fixed strategy list. -/
def process (env : AIEnv) (cfg : HybridConfig) (text op : String) (opts : JsOptions)
    (st : Stats) : RunResult :=
  processAux env cfg text op opts [.builtInAI, .geminiAPI, .basicFallback] [] [] st

end HybridAIManager

namespace HybridAIManager

/-- Ambient state read by the capability probe checkBuiltInAI: whether a
global ai object with a languageModel exists, and what
ai.languageModel.capabilities() resolves to (the availability string) or
throws. -/
structure ProbeEnv where
  aiPresent : Bool
  capabilities : Except String String
deriving Repr

/-- The mutable manager fields touched or preserved by the probe. -/
structure MgrState where
  isBuiltInAIAvailable : Bool
  geminiApiKey : Option String
deriving Repr

/-- HybridAIManager.checkBuiltInAI (src/unnamed/part_004, lines 699-727):
set isBuiltInAIAvailable to whether the probed capabilities report readily;
a missing ai object or a thrown probe sets it to false.  The speculative
session creation in the after-download case only affects the external model
download, not the manager state. -/
def checkBuiltInAI (env : ProbeEnv) (st : MgrState) : MgrState :=
  if env.aiPresent then
    match env.capabilities with
    | .ok avail => { st with isBuiltInAIAvailable := avail == "readily" }
    | .error _ => { st with isBuiltInAIAvailable := false }
  else { st with isBuiltInAIAvailable := false }

end HybridAIManager

/-!
Helper lemmas used by several of the claim theorems below.
-/

theorem str_ne_empty_of_data {s : String} (h : s.data ≠ []) : s ≠ "" :=
  fun he => h (by rw [he])

theorem data_append (a b : String) : (a ++ b).data = a.data ++ b.data := rfl

theorem append_str_ne_empty (a b : String) (h : a.data ≠ []) : a ++ b ≠ "" := by
  apply str_ne_empty_of_data
  rw [data_append]
  intro hc
  exact h (List.append_eq_nil.mp hc).1

theorem msGo_mem_ne_nil (cs : List Char) :
    ∀ body terms s, s ∈ msGo body terms cs → terms = [] ∨ terms ≠ [] → s ≠ [] := by
  induction cs with
  | nil =>
    intro body terms s hs _
    simp only [msGo] at hs
    split at hs
    · simp at hs
    · rename_i hcond
      simp at hs hcond
      subst hs
      intro hc
      rcases List.append_eq_nil.mp hc with ⟨_, h2⟩
      exact hcond.2 (by simpa using h2)
  | cons c cs ih =>
    intro body terms s hs _
    simp only [msGo] at hs
    split at hs
    · split at hs
      · exact ih [] [] s hs (Or.inl rfl)
      · exact ih body (c :: terms) s hs (Or.inr (by simp))
    · split at hs
      · exact ih (c :: body) [] s hs (Or.inl rfl)
      · rcases List.mem_cons.mp hs with h | h
        · subst h
          rename_i hterms
          intro hc
          rcases List.append_eq_nil.mp hc with ⟨_, h2⟩
          exact hterms (by simpa using h2)
        · exact ih [c] [] s h (Or.inl rfl)

theorem matchSentences_mem_ne_nil {cs : List Char} {s : List Char}
    (hs : s ∈ matchSentencesL cs) : s ≠ [] :=
  msGo_mem_ne_nil cs [] [] s hs (Or.inl rfl)

theorem msGo_no_term (cs : List Char) (hno : ∀ c ∈ cs, isTermChar c = false) :
    ∀ body, msGo body [] cs = [] := by
  induction cs with
  | nil => intro body; simp [msGo]
  | cons c cs ih =>
    intro body
    have hc := hno c (List.mem_cons_self c cs)
    have hrest : ∀ c' ∈ cs, isTermChar c' = false :=
      fun c' h' => hno c' (List.mem_cons_of_mem c h')
    simp only [msGo, hc]
    simpa using ih hrest (c :: body)

theorem matchSentences_no_term {cs : List Char}
    (hno : ∀ c ∈ cs, isTermChar c = false) : matchSentencesL cs = [] :=
  msGo_no_term cs hno []

theorem joinSp_cons_ne_nil (s : List Char) (ss : List (List Char)) (h : s ≠ []) :
    joinSp (s :: ss) ≠ [] := by
  cases ss with
  | nil => simpa [joinSp]
  | cons s' ss' =>
    simp only [joinSp]
    intro hc
    exact h (List.append_eq_nil.mp hc).1

theorem foldl_guarded_push_cons {α : Type} (g : Nat → α) (bound : Nat) (l : List Nat)
    (x : α) : ∀ t : List α, ∃ t' : List α,
    l.foldl (fun acc i => if acc.length < bound then acc ++ [g i] else acc) (x :: t) = x :: t' := by
  induction l with
  | nil => intro t; exact ⟨t, rfl⟩
  | cons i l ih =>
    intro t
    rw [List.foldl_cons]
    by_cases h : (x :: t).length < bound
    · rw [if_pos h, show (x :: t) ++ [g i] = x :: (t ++ [g i]) from rfl]
      exact ih (t ++ [g i])
    · rw [if_neg h]
      exact ih t

namespace HybridAIManager

theorem basicSummarizeL_ne_nil (cs : List Char) (opts : JsOptions)
    (hne : matchSentencesL cs ≠ []) : basicSummarizeL cs opts ≠ [] := by
  rcases hsent : matchSentencesL cs with _ | ⟨s, ss⟩
  · exact absurd hsent hne
  have hs_ne : s ≠ [] :=
    matchSentences_mem_ne_nil (by rw [hsent]; exact List.mem_cons_self s ss)
  simp only [basicSummarizeL, hsent]
  by_cases hlen : (s :: ss).length ≤ summaryCount opts.length
  · rw [if_pos hlen]
    exact joinSp_cons_ne_nil s ss hs_ne
  · rw [if_neg hlen]
    rw [List.headD_cons]
    obtain ⟨t', ht'⟩ :=
      foldl_guarded_push_cons (fun i => (s :: ss).getD i []) (summaryCount opts.length - 1)
        (midIdxs ((s :: ss).length / summaryCount opts.length) (s :: ss).length
          ((s :: ss).length / summaryCount opts.length)) s []
    rw [ht']
    exact joinSp_cons_ne_nil _ _ hs_ne

theorem replaceWordL_ne_nil (wrong right : List Char) (cs : List Char)
    (hr : right ≠ []) (hc : cs ≠ []) : replaceWordL wrong right cs ≠ [] := by
  rcases cs with _ | ⟨c, cs'⟩
  · exact absurd rfl hc
  simp only [replaceWordL]
  split
  · intro h
    rcases List.append_eq_nil.mp h with ⟨h1, _⟩
    split at h1
    · exact hr h1
    · simp at h1
  · simp

theorem foldl_corrections_ne_nil (l : List (String × String))
    (hl : ∀ p ∈ l, p.2.data ≠ []) :
    ∀ cs : List Char, cs ≠ [] →
      l.foldl (fun acc p => replaceWordL p.1.data p.2.data acc) cs ≠ [] := by
  induction l with
  | nil => intro cs hc; simpa using hc
  | cons p l ih =>
    intro cs hc
    rw [List.foldl_cons]
    exact ih (fun q hq => hl q (List.mem_cons_of_mem p hq)) _
      (replaceWordL_ne_nil p.1.data p.2.data cs (hl p (List.mem_cons_self p l)) hc)

theorem capLineStarts_ne_nil (b : Bool) (cs : List Char) (hc : cs ≠ []) :
    capLineStarts b cs ≠ [] := by
  rcases cs with _ | ⟨c, cs'⟩
  · exact absurd rfl hc
  simp only [capLineStarts]
  split
  · simp
  · split
    · simp
    · split <;> simp

theorem capAfterDot_length (cs : List Char) : (capAfterDot cs).length = cs.length := by
  induction cs using capAfterDot.induct <;> simp [capAfterDot, *] <;> split <;> simp [*]

theorem capAfterDot_ne_nil (cs : List Char) (hc : cs ≠ []) : capAfterDot cs ≠ [] := by
  intro h
  apply hc
  have := capAfterDot_length cs
  rw [h] at this
  exact List.length_eq_zero.mp this.symm

theorem basicProofreadL_ne_nil (cs : List Char) (hc : cs ≠ []) :
    basicProofreadL cs ≠ [] := by
  unfold basicProofreadL
  apply capAfterDot_ne_nil
  apply capLineStarts_ne_nil
  apply foldl_corrections_ne_nil corrections _ cs hc
  intro p hp
  fin_cases hp <;> simp [apoS, apoC]

theorem basicProofread_ne_empty (text : String) (h : text ≠ "") :
    basicProofread text ≠ "" := by
  apply str_ne_empty_of_data
  show basicProofreadL text.data ≠ []
  apply basicProofreadL_ne_nil
  intro hc
  exact h (by cases text; simp_all)

theorem data_ne_nil_append (a b : String) (h : a.data ≠ []) : (a ++ b).data ≠ [] := by
  rw [data_append]
  intro hc
  exact h (List.append_eq_nil.mp hc).1

theorem truthy_str (s : String) (h : s ≠ "") : truthy (.str s) = true := by
  simp [truthy, h]

theorem basicTranslate_ne_empty (text : String) (opts : JsOptions) :
    basicTranslate text opts ≠ "" := by
  unfold basicTranslate
  apply str_ne_empty_of_data
  apply data_ne_nil_append
  decide

theorem basicExplain_ne_empty (text : String) : basicExplain text ≠ "" := by
  unfold basicExplain
  apply str_ne_empty_of_data
  repeat apply data_ne_nil_append
  decide

theorem processWithBasicFallback_truthy (text op : String) (opts : JsOptions)
    (hne : text ≠ "")
    (hop : ¬(op = "summarize" ∧ matchSentencesL text.data = [])) :
    truthy (processWithBasicFallback text op opts) = true := by
  unfold processWithBasicFallback
  by_cases h1 : op = "summarize"
  · rw [if_pos h1]
    refine truthy_str _ (str_ne_empty_of_data ?_)
    show basicSummarizeL text.data opts ≠ []
    exact basicSummarizeL_ne_nil text.data opts (fun hc => hop ⟨h1, hc⟩)
  rw [if_neg h1]
  by_cases h2 : op = "translate"
  · rw [if_pos h2]
    exact truthy_str _ (basicTranslate_ne_empty text opts)
  rw [if_neg h2]
  by_cases h3 : op = "generateQuestions"
  · rw [if_pos h3]; rfl
  rw [if_neg h3]
  by_cases h4 : op = "createFlashcards"
  · rw [if_pos h4]; rfl
  rw [if_neg h4]
  by_cases h5 : op = "proofread"
  · rw [if_pos h5]
    exact truthy_str _ (basicProofread_ne_empty text hne)
  rw [if_neg h5]
  by_cases h6 : op = "explain"
  · rw [if_pos h6]
    exact truthy_str _ (basicExplain_ne_empty text)
  rw [if_neg h6]
  by_cases h7 : op = "rewrite"
  · rw [if_pos h7]
    exact truthy_str _ hne
  rw [if_neg h7]
  apply truthy_str
  apply str_ne_empty_of_data
  apply data_ne_nil_append
  apply data_ne_nil_append
  decide

theorem processAux_ok_of_exists (env : AIEnv) (cfg : HybridConfig) (text op : String)
    (opts : JsOptions) :
    ∀ (l : List StrategyName) (trail : List (StrategyName × Option String))
      (inv : List StrategyName) (st : Stats),
      (∃ s ∈ l, ∃ v, (runStrategy env cfg text op opts s).1 = .ok v ∧ truthy v = true) →
      ∃ o, (processAux env cfg text op opts l trail inv st).outcome = .ok o := by
  intro l
  induction l with
  | nil =>
    intro trail inv st h
    simp at h
  | cons s rest ih =>
    intro trail inv st h
    simp only [processAux]
    rcases hr : runStrategy env cfg text op opts s with ⟨r, reached⟩
    rcases r with m | v
    · rcases h with ⟨s', hs', v', hv', htr'⟩
      rcases List.mem_cons.mp hs' with rfl | hmem
      · rw [hr] at hv'
        simp at hv'
      · exact ih _ _ _ ⟨s', hmem, v', hv', htr'⟩
    · dsimp only
      by_cases ht : truthy v = true
      · simp only [ht, if_true]
        exact ⟨_, rfl⟩
      · rw [Bool.not_eq_true] at ht
        simp only [ht, Bool.false_eq_true, if_false]
        rcases h with ⟨s', hs', v', hv', htr'⟩
        rcases List.mem_cons.mp hs' with rfl | hmem
        · rw [hr] at hv'
          simp at hv'
          subst hv'
          rw [htr'] at ht
          cases ht
        · exact ih _ _ _ ⟨s', hmem, v', hv', htr'⟩

theorem processAux_stats_independent (env : AIEnv) (cfg : HybridConfig) (text op : String)
    (opts : JsOptions) :
    ∀ (l : List StrategyName) (trail : List (StrategyName × Option String))
      (inv : List StrategyName) (st1 st2 : Stats),
      (processAux env cfg text op opts l trail inv st1).outcome =
        (processAux env cfg text op opts l trail inv st2).outcome ∧
      (processAux env cfg text op opts l trail inv st1).attempts =
        (processAux env cfg text op opts l trail inv st2).attempts ∧
      (processAux env cfg text op opts l trail inv st1).invoked =
        (processAux env cfg text op opts l trail inv st2).invoked := by
  intro l
  induction l with
  | nil =>
    intro trail inv st1 st2
    exact ⟨rfl, rfl, rfl⟩
  | cons s rest ih =>
    intro trail inv st1 st2
    simp only [processAux]
    rcases hr : runStrategy env cfg text op opts s with ⟨r, reached⟩
    rcases r with m | v
    · exact ih _ _ _ _
    · dsimp only
      by_cases ht : truthy v = true
      · simp only [ht, if_true]
        exact ⟨trivial, trivial, trivial⟩
      · rw [Bool.not_eq_true] at ht
        simp only [ht, Bool.false_eq_true, if_false]
        exact ih _ _ _ _

end HybridAIManager

open HybridAIManager AIManagerEnhanced

/-- A no-AI environment: the built-in backend always throws and the network
always rejects. -/
def env0 : AIEnv := ⟨fun _ => .error "unavailable", fun _ => .fetchError "offline"⟩

/-- C10: for every non-empty input text containing no sentence terminator,
basicSummarize returns the empty string, the truthiness guard of the process
loop treats that result as a failed attempt, and a resolution reduced to the
heuristic path (no built-in AI, no API key) therefore fails with the
terminal error. -/
theorem c10_sentenceless_summarize_fails (text : String) (opts : JsOptions)
    (env : AIEnv) (st : Stats) (hne : text ≠ "")
    (hterm : ∀ c ∈ text.data, isTermChar c = false) :
    basicSummarize text opts = "" ∧
    truthy (.str (basicSummarize text opts)) = false ∧
    (process env ⟨false, none⟩ text "summarize" opts st).outcome =
      .error "All AI processing strategies failed" := by
  have hsent : matchSentencesL text.data = [] := matchSentences_no_term hterm
  have hsum : basicSummarize text opts = "" := by
    simp only [basicSummarize, basicSummarizeL, hsent]
    simp [joinSp]
  refine ⟨hsum, by rw [hsum]; rfl, ?_⟩
  have hbasic : processWithBasicFallback text "summarize" opts = .str "" := by
    unfold processWithBasicFallback
    rw [if_pos rfl, hsum]
  simp [process, processAux, runStrategy, processWithBuiltInAI, processWithGeminiAPI,
    hbasic, truthy]

/-- Witness for C10 at the concrete input hello. -/
theorem c10_witness :
    (process env0 ⟨false, none⟩ "hello" "summarize" {} {}).outcome =
      .error "All AI processing strategies failed" :=
  (c10_sentenceless_summarize_fails "hello" {} env0 {} (by decide) (by decide)).2.2

/-- C1 counterexample: a request with non-empty text (and the always
registered basic fallback strategy) for which process still throws the
terminal error, because the heuristic summarizer returns an empty string on
text without a complete sentence and the loop treats it as a failure. -/
theorem c1_counterexample :
    (process env0 ⟨false, none⟩ "hi" "summarize" {} {}).outcome =
      .error "All AI processing strategies failed" := rfl

/-- C1 amended: with non-empty text, resolution always returns a successful
outcome served by some strategy, except when the operation is summarize and
the text contains no complete sentence chunk, in which case the basic
fallback result is the empty string and is treated as a failed attempt. -/
theorem c1_amended (env : AIEnv) (cfg : HybridConfig) (text op : String)
    (opts : JsOptions) (st : Stats) (hne : text ≠ "")
    (hop : ¬(op = "summarize" ∧ matchSentencesL text.data = [])) :
    ∃ o, (process env cfg text op opts st).outcome = .ok o := by
  apply processAux_ok_of_exists
  exact ⟨.basicFallback, by simp, processWithBasicFallback text op opts, rfl,
    processWithBasicFallback_truthy text op opts hne hop⟩

/-- Witness for the amended C1 at a concrete summarizable input. -/
theorem c1_amended_witness :
    ∃ o, (process env0 ⟨false, none⟩ "hi." "summarize" {} {}).outcome = .ok o :=
  c1_amended env0 ⟨false, none⟩ "hi." "summarize" {} {} (by decide) (by decide)

/-- C3 counterexample: an empty-text request is not rejected before the
adapters: with no built-in AI and no API key a translate request on the
empty string succeeds through the basic fallback adapter (no InvalidRequest
error is raised) and that adapter is invoked with the empty input. -/
theorem c3_counterexample :
    (process env0 ⟨false, none⟩ "" "translate" {} {}).outcome =
      .ok ⟨.str ("Translation not available offline. Open Google Translate: " ++
        "https://translate.google.com/?sl=en&tl=es&text="), .basicFallback⟩ ∧
    (process env0 ⟨false, none⟩ "" "translate" {} {}).invoked = [.basicFallback] :=
  ⟨rfl, rfl⟩

/-- C3 amended: process performs no empty-text validation at all; an
empty-text request flows through the normal strategy cascade, and with no
built-in AI and no API key an empty translate request is served by the basic
fallback, which is invoked with the empty input. -/
theorem c3_amended (env : AIEnv) (st : Stats) :
    (process env ⟨false, none⟩ "" "translate" {} st).outcome =
      .ok ⟨.str ("Translation not available offline. Open Google Translate: " ++
        "https://translate.google.com/?sl=en&tl=es&text="), .basicFallback⟩ ∧
    (process env ⟨false, none⟩ "" "translate" {} st).invoked = [.basicFallback] :=
  ⟨rfl, rfl⟩

/-- C4: with the built-in adapter Unavailable (its capability guard throws
before any backend dispatch), the Gemini adapter Ready (key configured) and
succeeding with a truthy result, and the basic fallback registered last,
resolution is served by the Gemini strategy, the attempt trail stops before
the basic fallback, and the built-in backend is never invoked. -/
theorem c4_priority_ordering (env : AIEnv) (k text op : String) (opts : JsOptions)
    (st : Stats) (r : StratResult)
    (hg : processWithGeminiAPI env ⟨false, some k⟩ op = .ok r)
    (ht : truthy r = true) :
    (process env ⟨false, some k⟩ text op opts st).outcome = .ok ⟨r, .geminiAPI⟩ ∧
    (process env ⟨false, some k⟩ text op opts st).attempts =
      [(.builtInAI, some "Built-in AI not available"), (.geminiAPI, none)] ∧
    (process env ⟨false, some k⟩ text op opts st).invoked = [.geminiAPI] := by
  have h1 : processWithBuiltInAI env ⟨false, some k⟩ op = .error "Built-in AI not available" :=
    rfl
  simp only [process, processAux, runStrategy, h1, hg, ht, if_true]
  refine ⟨trivial, by simp, by simp⟩

/-- Concrete payload whose nested path holds the text Hi. -/
def payloadHi : GPayload := ⟨some [⟨some ⟨some [⟨some "Hi"⟩]⟩, none⟩]⟩

/-- Environment whose built-in backend throws and whose network returns the
payload payloadHi. -/
def envHi : AIEnv := ⟨fun _ => .error "unavailable", fun _ => .okPayload payloadHi⟩

/-- Witness for C4 at a concrete environment. -/
theorem c4_priority_ordering_witness :
    (process envHi ⟨false, some "key"⟩ "t" "proofread" {} {}).outcome =
      .ok ⟨.str "Hi", .geminiAPI⟩ :=
  (c4_priority_ordering envHi "key" "t" "proofread" {} {} (.str "Hi") rfl rfl).1

/-- C5: a BackendError thrown by the Gemini adapter is recovered locally by
falling through to the next adapter: when the Gemini strategy throws with
message m and the basic fallback result is truthy, resolution is served by
the basic fallback, the attempt trail records the Gemini attempt with the
failure reason m and the basic fallback attempt with none, and no raw error
reaches the caller. -/
theorem c5_fallback_on_failure (env : AIEnv) (k text op m : String) (opts : JsOptions)
    (st : Stats)
    (hg : processWithGeminiAPI env ⟨false, some k⟩ op = .error m)
    (hb : truthy (processWithBasicFallback text op opts) = true) :
    (process env ⟨false, some k⟩ text op opts st).outcome =
      .ok ⟨processWithBasicFallback text op opts, .basicFallback⟩ ∧
    (process env ⟨false, some k⟩ text op opts st).attempts =
      [(.builtInAI, some "Built-in AI not available"), (.geminiAPI, some m),
       (.basicFallback, none)] ∧
    (process env ⟨false, some k⟩ text op opts st).invoked = [.geminiAPI, .basicFallback] := by
  have h1 : processWithBuiltInAI env ⟨false, some k⟩ op = .error "Built-in AI not available" :=
    rfl
  simp only [process, processAux, runStrategy, h1, hg, hb, if_true]
  refine ⟨trivial, by simp, by simp⟩

/-- Environment whose built-in backend throws and whose network rejects with
a timeout. -/
def envTimeout : AIEnv := ⟨fun _ => .error "unavailable", fun _ => .fetchError "Timeout"⟩

/-- Witness for C5 at a concrete environment where the Gemini fetch rejects
with Timeout. -/
theorem c5_fallback_on_failure_witness :
    (process envTimeout ⟨false, some "key"⟩ "hi" "translate" {} {}).attempts =
      [(.builtInAI, some "Built-in AI not available"), (.geminiAPI, some "Timeout"),
       (.basicFallback, none)] :=
  (c5_fallback_on_failure envTimeout "key" "hi" "translate" "Timeout" {} {} rfl
    (by decide)).2.1

/-- C8: the usage recorder has no effect on resolution: two process calls
differing only in the initial stats counters produce the same outcome, the
same attempt trail and the same invoked-backend list, so the stats updates
are removable without changing resolver semantics. -/
theorem c8_stats_no_effect (env : AIEnv) (cfg : HybridConfig) (text op : String)
    (opts : JsOptions) (st1 st2 : Stats) :
    (process env cfg text op opts st1).outcome = (process env cfg text op opts st2).outcome ∧
    (process env cfg text op opts st1).attempts = (process env cfg text op opts st2).attempts ∧
    (process env cfg text op opts st1).invoked = (process env cfg text op opts st2).invoked :=
  processAux_stats_independent env cfg text op opts _ [] [] st1 st2

/-- C9: the capability probe checkBuiltInAI is idempotent: on an unchanged
ambient environment a second probe leaves the manager state unchanged and
reports the same capability value. -/
theorem c9_probe_idempotent (env : ProbeEnv) (st : MgrState) :
    checkBuiltInAI env (checkBuiltInAI env st) = checkBuiltInAI env st ∧
    (checkBuiltInAI env (checkBuiltInAI env st)).isBuiltInAIAvailable =
      (checkBuiltInAI env st).isBuiltInAIAvailable := by
  have h : checkBuiltInAI env (checkBuiltInAI env st) = checkBuiltInAI env st := by
    rcases env with ⟨ap, caps⟩
    cases ap <;> rcases caps with m | avail <;> simp [checkBuiltInAI]
  exact ⟨h, by rw [h]⟩

/-- C6: the structured parsers never yield an empty list when they return:
parseQuestions is always non-empty and is exactly the single placeholder
question when the secondary parse finds zero items; parseFlashcards, when it
returns without throwing, is non-empty and is exactly the single sample
flashcard when the secondary parse finds zero items. -/
theorem c6_structured_nonempty (text : String) :
    (parseQuestions text ≠ [] ∧
      (parseQuestionsItems text = [] →
        parseQuestions text = ["Could not generate questions"])) ∧
    (∀ l, parseFlashcardsE text = .ok l →
      l ≠ [] ∧ (parseFlashcardsItemsE text = .ok [] →
        l = [{ question := "Sample Question", answer := "Sample Answer" }])) := by
  refine ⟨⟨?_, ?_⟩, ?_⟩
  · simp only [parseQuestions]
    rcases h : parseQuestionsItems text with _ | ⟨q, qs⟩ <;> simp [h]
  · intro hitems
    simp [parseQuestions, hitems]
  · intro l hl
    simp only [parseFlashcardsE] at hl
    rcases hi : parseFlashcardsItemsE text with e | items
    · rw [hi] at hl
      simp [Except.map] at hl
    · rw [hi] at hl
      simp only [Except.map, Except.ok.injEq] at hl
      constructor
      · rw [← hl]
        rcases items with _ | ⟨f, fs⟩ <;> simp
      · intro hzero
        simp only [Except.ok.injEq] at hzero
        subst hzero
        rw [← hl]
        simp

/-- Witness for C6: on the empty response text the secondary parse finds no
items and the placeholder question list is returned. -/
theorem c6_structured_nonempty_witness :
    parseQuestions "" = ["Could not generate questions"] :=
  (c6_structured_nonempty "").1.2 rfl

theorem pathACheck_ne_empty {cand : GCandidate} {t : String}
    (h : AIManager.pathACheck cand = some t) : t ≠ "" := by
  unfold AIManager.pathACheck at h
  rcases cand with ⟨content, output⟩
  rcases content with _ | ⟨parts⟩
  · simp at h
  rcases parts with _ | ⟨_ | ⟨part, rest⟩⟩
  · simp at h
  · simp at h
  rcases part with ⟨ptext⟩
  rcases ptext with _ | t'
  · simp at h
  simp only at h
  split at h
  · cases h
  · rename_i hne
    rw [Option.some.injEq] at h
    subst h
    exact hne

/-- The payload with candidates[0].content.parts[0].text = Hello. -/
def exHello : GPayload := ⟨some [⟨some ⟨some [⟨some "Hello"⟩]⟩, none⟩]⟩

/-- The payload with candidates[0].output = Hi and no content. -/
def exHi : GPayload := ⟨some [⟨none, some "Hi"⟩]⟩

/-- The payload with an empty candidates array. -/
def exEmptyCands : GPayload := ⟨some []⟩

/-- C2: the normalizer of AIManager.geminiPrompt tries
candidates[0].content.parts[0].text and then candidates[0].output, returns
the first non-empty string found (path a takes priority), raises the
invalid-payload error when neither path yields a non-empty string, never
returns an empty string as success, and maps the three reference payloads to
Hello, Hi and the invalid-payload error respectively. -/
theorem c2_normalizer_roundtrip :
    AIManager.normalizeGemini exHello = .ok "Hello" ∧
    AIManager.normalizeGemini exHi = .ok "Hi" ∧
    AIManager.normalizeGemini exEmptyCands = .error .invalidPayload ∧
    (∀ p s, AIManager.normalizeGemini p = .ok s → s ≠ "") ∧
    (∀ p t, AIManager.pathAText p = some t → t ≠ "" →
      AIManager.normalizeGemini p = .ok t) := by
  refine ⟨rfl, rfl, rfl, ?_, ?_⟩
  · intro p s h
    unfold AIManager.normalizeGemini at h
    rcases p with ⟨cands⟩
    rcases cands with _ | ⟨_ | ⟨cand, rest⟩⟩
    · cases h
    · cases h
    simp only at h
    rcases hpa : AIManager.pathACheck cand with _ | t
    · rw [hpa] at h
      rcases cand with ⟨content, output⟩
      rcases output with _ | o
      · cases h
      simp only at h
      split at h
      · cases h
      · rename_i hne
        rw [Except.ok.injEq] at h
        subst h
        exact hne
    · rw [hpa] at h
      rw [Except.ok.injEq] at h
      subst h
      exact pathACheck_ne_empty hpa
  · intro p t hpa hne
    rcases p with ⟨cands⟩
    rcases cands with _ | ⟨_ | ⟨cand, rest⟩⟩
    · cases hpa
    · cases hpa
    rcases cand with ⟨content, output⟩
    rcases content with _ | ⟨parts⟩
    · cases hpa
    rcases parts with _ | ⟨_ | ⟨part, prest⟩⟩
    · cases hpa
    · cases hpa
    rcases part with ⟨ptext⟩
    rcases ptext with _ | t'
    · cases hpa
    simp only [AIManager.pathAText, Option.some.injEq] at hpa
    subst hpa
    simp [AIManager.normalizeGemini, AIManager.pathACheck, hne]

/-- Witness for C2: the never-empty clause applied at the Hello payload. -/
theorem c2_normalizer_roundtrip_witness : ("Hello" : String) ≠ "" :=
  c2_normalizer_roundtrip.2.2.2.1 exHello "Hello" c2_normalizer_roundtrip.1

theorem tryEndpoints_step (net : String → FetchRes) (e : String) (rest : List String)
    (last : Option String) (hf : endpointFails (net e) = true) :
    tryEndpoints net (e :: rest) last =
      tryEndpoints net rest (some (endpointFailMsg (net e))) := by
  simp only [tryEndpoints]
  rcases hr : net e with p | m | m
  · rw [hr] at hf
    simp only [endpointFails] at hf
    rcases hx : extractDeepText p with m | v
    · simp [endpointFailMsg, hr, hx]
    · rw [hx] at hf
      simp at hf
  · simp [endpointFailMsg, hr]
  · simp [endpointFailMsg, hr]

theorem tryEndpoints_all_fail (net : String → FetchRes) :
    ∀ l : List String, l ≠ [] → (∀ e ∈ l, endpointFails (net e) = true) →
    ∀ last, tryEndpoints net l last =
      .error ("Gemini API error: " ++ endpointFailMsg (net (lastElemD "" l))) := by
  intro l
  induction l with
  | nil => intro h; exact absurd rfl h
  | cons e rest ih =>
    intro _ hall last
    rw [tryEndpoints_step net e rest last (hall e (List.mem_cons_self e rest))]
    rcases rest with _ | ⟨e2, rest'⟩
    · simp [tryEndpoints, lastElemD]
    · rw [ih (by simp) (fun x hx => hall x (List.mem_cons_of_mem e hx)) _]
      rfl

theorem tryEndpoints_success (net : String → FetchRes) :
    ∀ (pre : List String) (e : String) (post : List String) (last : Option String),
    (∀ x ∈ pre, endpointFails (net x) = true) → endpointFails (net e) = false →
    ∃ p v, net e = .okPayload p ∧ extractDeepText p = .ok v ∧
      tryEndpoints net (pre ++ e :: post) last = .ok v := by
  intro pre
  induction pre with
  | nil =>
    intro e post last _ hok
    rcases hr : net e with p | m | m
    · rw [hr] at hok
      simp only [endpointFails] at hok
      rcases hx : extractDeepText p with m | v
      · rw [hx] at hok
        simp at hok
      · exact ⟨p, v, rfl, hx, by simp [tryEndpoints, hr, hx]⟩
    · rw [hr] at hok
      simp [endpointFails] at hok
    · rw [hr] at hok
      simp [endpointFails] at hok
  | cons x pre' ih =>
    intro e post last hall hok
    rw [List.cons_append,
      tryEndpoints_step net x _ last (hall x (List.mem_cons_self x pre'))]
    exact ih e post _ (fun y hy => hall y (List.mem_cons_of_mem x hy)) hok

/-- C7: the endpoint cascade of AIManagerEnhanced.geminiPrompt tries the
endpoint variants in sequence, treats each endpoint failure (non-ok
response, fetch rejection, or unextractable payload) as non-fatal by
continuing with the next endpoint, raises an error only after every
endpoint has failed, and that error carries the message of the last
failure. -/
theorem c7_endpoint_cascade (net : String → FetchRes) :
    ((∀ e ∈ geminiEndpoints, endpointFails (net e) = true) →
      AIManagerEnhanced.geminiPrompt net =
        .error ("Gemini API error: " ++ endpointFailMsg (net (lastElemD "" geminiEndpoints)))) ∧
    (∀ pre e post, geminiEndpoints = pre ++ e :: post →
      (∀ x ∈ pre, endpointFails (net x) = true) →
      endpointFails (net e) = false →
      ∃ p v, net e = .okPayload p ∧ extractDeepText p = .ok v ∧
        AIManagerEnhanced.geminiPrompt net = .ok v) := by
  constructor
  · intro hall
    exact tryEndpoints_all_fail net geminiEndpoints (by simp [geminiEndpoints]) hall none
  · intro pre e post hsplit hall hok
    obtain ⟨p, v, h1, h2, h3⟩ := tryEndpoints_success net pre e post none hall hok
    refine ⟨p, v, h1, h2, ?_⟩
    unfold AIManagerEnhanced.geminiPrompt
    rw [hsplit]
    exact h3

/-- The network oracle whose every fetch rejects with the message boom. -/
def netBoom : String → FetchRes := fun _ => .fetchError "boom"

/-- Witness for C7: with every endpoint rejecting, the cascade throws the
final error carrying the last failure message. -/
theorem c7_endpoint_cascade_witness :
    AIManagerEnhanced.geminiPrompt netBoom = .error "Gemini API error: boom" :=
  (c7_endpoint_cascade netBoom).1 (fun e _ => rfl)
